import Mathlib

/-!
# Verification model of `graphql.py`

A shallow embedding of the batch GraphQL runner in `src/graphql.py`:
the per-item request loop `doQuery` (with its inner coroutine `internal`),
the shared run state (`state.activeTasks`, `state.doneTasks`,
`state.stop_immediately`, `responseList`), the file-input setup
(`totalIDs`, `lineList`, task creation in `main`), and the final summary
computation (`results.count(200)` and the never-responded set).

Two complementary models are developed:

* a pure functional model of one executor (`doQuery`) and of a sequential
  run (`runSeq`), used for per-item retry/classification properties and
  the summary bookkeeping; and
* a small-step interleaving semantics (`Step`) of the cooperative asyncio
  scheduler, with one program counter per flow, used for the concurrency
  properties (gate admission, stop flag, crashes, done counter).
-/

namespace Graphql

/-- An HTTP response as `internal` observes it: the status code
(`resp.status`), whether `await resp.json()` succeeds (it raises
`ContentTypeError`/`UnicodeDecodeError` otherwise, setting `failed_json`),
and whether the decoded JSON contains an `errors` key. -/
structure Response where
  status : Int
  decodeOk : Bool
  hasErrors : Bool
  deriving DecidableEq, Repr

/-- The classification in `internal` (src/graphql.py lines 244-264):
`error_code = resp.status`; if the status is 200 but JSON decoding failed
or the decoded body has an `errors` key, `error_code` is set to `-1`;
otherwise it stays `resp.status`. -/
def error_code (r : Response) : Int :=
  if r.status ≠ 200 then r.status
  else if !r.decodeOk then -1
  else if r.hasErrors then -1
  else r.status

/-- The success predicate as the spec words it: HTTP status exactly 200,
the body decodes, and the decoded body has no `errors` key. -/
def spec_success (r : Response) : Prop :=
  r.status = 200 ∧ r.decodeOk = true ∧ r.hasErrors = false

instance (r : Response) : Decidable (spec_success r) := by
  unfold spec_success
  infer_instance

/-- The mutable run state a single executor touches, in the sequential
model: `state.doneTasks`, `state.stop_immediately`, the global
`responseList`, plus instrumentation of the attempts made and the
backoff sleeps performed (`await asyncio.sleep(backoff)`).
`state.activeTasks` nets to zero inside one attempt (incremented on entry
to `internal`, decremented when the response arrives) and is tracked only
in the interleaving model. -/
structure RunState where
  doneTasks : Nat
  stopFlag : Bool
  responded : List Nat
  attempts : Nat
  sleeps : List Nat
  deriving DecidableEq, Repr

/-- `max_requests = 1 if args.stop else args.retries + 1`
(src/graphql.py line 226). -/
def max_requests (stop : Bool) (retries : Nat) : Nat :=
  if stop then 1 else retries + 1

/-- State effects of one call of `internal` once the response `r` arrived
(src/graphql.py lines 239-243): `doneTasks` is incremented unless the
status is 429, and the item id is appended to `responseList`. -/
def recordAttempt (id : Nat) (r : Response) (s : RunState) : RunState :=
  { s with
    doneTasks := s.doneTasks + (if r.status = 429 then 0 else 1)
    responded := s.responded ++ [id]
    attempts := s.attempts + 1 }

/-- `state.doneTasks += 1` on the skip and retry-exhaustion paths
(src/graphql.py lines 273 and 291). -/
def bumpDone (s : RunState) : RunState :=
  { s with doneTasks := s.doneTasks + 1 }

/-- `state.stop_immediately = True` (src/graphql.py line 279). -/
def setFlag (s : RunState) : RunState :=
  { s with stopFlag := true }

/-- `await asyncio.sleep(backoff)` (src/graphql.py line 287),
instrumented as appending the slept duration. -/
def addSleep (b : Nat) (s : RunState) : RunState :=
  { s with sleeps := s.sleeps ++ [b] }

/-- The retry loop of `doQuery` (src/graphql.py lines 270-296), sequential
model.  `k` is the number of loop iterations remaining (initially
`max_requests`), `backoff` the current backoff, and `resps n` the response
the server would give to the `n`-th remaining attempt (the oracle is
shifted by one at each recursive call).  At the top of each iteration the
stop flag is checked (line 272: `doneTasks += 1`, return `-1`).  Otherwise
the attempt runs (`internal`), the flag is re-checked (line 276, returning
the real `resp_code`), then with `args.stop` any non-200 code sets the
flag and returns `-1` (lines 278-280).  A 429 sleeps `backoff` and doubles
it when iterations remain (lines 281-288) and continues; any other code
returns (line 290).  Falling off the loop is retry exhaustion
(lines 291-296): `doneTasks += 1`, return `-1`. -/
def doQueryGo (stop : Bool) (id : Nat) :
    Nat → Nat → (Nat → Response) → RunState → Int × RunState
  | 0, _, _, s => (-1, bumpDone s)
  | k + 1, backoff, resps, s =>
    if s.stopFlag then (-1, bumpDone s)
    else
      let r := resps 0
      let code := error_code r
      let s1 := recordAttempt id r s
      -- line 276: in the sequential model nothing else can have set the
      -- flag during the attempt, but the check is kept as in the source
      if s1.stopFlag then (code, s1)
      else if stop ∧ code ≠ 200 then (-1, setFlag s1)
      else if code = 429 then
        doQueryGo stop id k (backoff * 2) (fun n => resps (n + 1))
          (if 0 < k then addSleep backoff s1 else s1)
      else (code, s1)

/-- One executor, `doQuery` (src/graphql.py lines 230-296), sequential
model: runs the retry loop with `max_requests` iterations and initial
backoff 1.  The gate busy-wait of lines 232-233 is a no-op when no other
flow runs and lives in the interleaving model. -/
def doQuery (stop : Bool) (retries : Nat) (id : Nat)
    (resps : Nat → Response) (s : RunState) : Int × RunState :=
  doQueryGo stop id (max_requests stop retries) 1 resps s

/-- A sequential run of the batch: one `doQuery` per work item, results
collected in order as `asyncio.gather` does (src/graphql.py line 328),
threading the shared state. -/
def runSeq (stop : Bool) (retries : Nat) :
    List (Nat × (Nat → Response)) → RunState → List Int × RunState
  | [], s => ([], s)
  | (id, ora) :: rest, s =>
    let p := doQuery stop retries id ora s
    let q := runSeq stop retries rest p.2
    (p.1 :: q.1, q.2)

/-- `successes = results.count(200)` (src/graphql.py line 330). -/
def successesOf (results : List Int) : Nat :=
  results.count 200

/-- The never-responded set of the summary (src/graphql.py lines 337-346):
the ids in `varList` (resp. `lineList`) that were never appended to
`responseList`. -/
def neverResponded (vars responded : List Nat) : List Nat :=
  vars.filter (fun v => ¬ v ∈ responded)

/-- The initial shared state (`state.doneTasks = 0`,
`state.stop_immediately = False`, `responseList = []`,
src/graphql.py lines 227 and 302-304). -/
def initRun : RunState :=
  { doneTasks := 0, stopFlag := false, responded := [], attempts := 0,
    sleeps := [] }

/-! ## File-input mode (src/graphql.py lines 210-217 and 321-327)

Input lines are modelled as `List Char`; Python's `line.strip()` is
`pyStrip`. -/

/-- Python's `str.strip()`: remove leading and trailing whitespace. -/
def pyStrip (l : List Char) : List Char :=
  ((l.dropWhile Char.isWhitespace).reverse.dropWhile Char.isWhitespace).reverse

/-- `totalIDs += bool(line.strip())` over all input lines
(src/graphql.py line 215): the number of non-blank lines. -/
def totalIDsOf (lines : List (List Char)) : Nat :=
  (lines.filter (fun l => pyStrip l ≠ [])).length

/-- `lineList.append(i+1)` for every input line, blank or not
(src/graphql.py line 324). -/
def lineListOf (lines : List (List Char)) : List Nat :=
  (List.range lines.length).map (· + 1)

/-- The tasks `main` creates in file mode (src/graphql.py lines 322-327):
one per non-blank line, with id `i + 1` and the stripped line as the
query text. -/
def fileTasks (lines : List (List Char)) : List (Nat × List Char) :=
  (lines.enum.filter (fun p => pyStrip p.2 ≠ [])).map
    (fun p => (p.1 + 1, pyStrip p.2))

/-- Pair each created task with the responses the server will give it,
to feed a run: the oracle may depend on the id and the query text. -/
def withOracles (ts : List (Nat × List Char))
    (f : Nat → List Char → Nat → Response) : List (Nat × (Nat → Response)) :=
  ts.map (fun t => (t.1, f t.1 t.2))

/-! ## Interleaving semantics of the cooperative scheduler

One flow (asyncio task) per work item.  A flow suspends exactly at the
source's await points: the gate busy-wait (`await asyncio.sleep(0)`,
line 233), the network call (`sess.post`, line 237), the body read
(`await resp.json()`, line 246), and the backoff sleep (line 287).
Everything between two suspension points is one atomic step. -/

/-- Program counter of one flow.  `k` counts the loop iterations still
available (`max_requests` at first dispatch), `b` is the backoff to sleep
next.
* `gate`: spinning in the admission loop (line 232), first attempt not
  yet dispatched;
* `inFlightA k b`: `activeTasks` incremented, awaiting the response
  headers of attempt `maxReq - k`;
* `inFlightB k b r`: response headers of `r` processed (lines 238-244),
  awaiting the body;
* `sleeping k b`: in the backoff sleep, `k` iterations left, `b` the
  next backoff;
* `crashed`: the awaited call raised; the exception propagates out of
  `doQuery` to the `asyncio.gather` boundary;
* `term code`: `doQuery` returned `code`. -/
inductive PC where
  | gate
  | inFlightA (k b : Nat)
  | inFlightB (k b : Nat) (r : Response)
  | sleeping (k b : Nat)
  | crashed
  | term (code : Int)
  deriving DecidableEq, Repr

/-- Static configuration of one run: `concurrent_requests` (`L`),
`args.stop`, `args.retries`, the number of flows, each flow's item id,
and the response oracle: `ora i n` is what attempt `n` of flow `i`
receives (`none` = the call raises). -/
structure RunCfg where
  L : Int
  stop : Bool
  retries : Nat
  nflows : Nat
  ident : Nat → Nat
  ora : Nat → Nat → Option Response

/-- `max_requests` of a run configuration. -/
def RunCfg.maxReq (rc : RunCfg) : Nat :=
  max_requests rc.stop rc.retries

/-- Global state: per-flow program counters plus the shared
`state.activeTasks`, `state.doneTasks`, `state.stop_immediately` and
`responseList`. -/
structure Config where
  flows : Nat → PC
  active : Int
  done : Nat
  flag : Bool
  responded : List Nat

/-- One step of the cooperative scheduler.  Each constructor is the
synchronous code between two await points of one flow:

* `dispatchSkip`/`dispatchGo`: the gate loop (line 232) exits only when
  `activeTasks < concurrent_requests`; then line 272 checks the stop
  flag (skip: `doneTasks += 1`, return -1) and otherwise `internal`
  increments `activeTasks` (line 236) and issues the POST;
* `respond`: the response headers arrive (lines 238-243): `activeTasks`
  decremented, `doneTasks` incremented unless status 429, the id
  appended to `responseList`; the flow then awaits the body;
* `crash`: the awaited POST raises; `activeTasks` is *not* decremented
  and nothing is recorded — the exception escapes `doQuery`;
* `classify*`: the body arrives and `internal` returns `error_code`;
  `doQuery` then (line 276) returns the real code if the flag is set;
  (line 278) with `args.stop` any non-200 code sets the flag and
  returns -1; a 429 with iterations remaining sleeps the backoff and
  doubles it (lines 281-288); a 429 with none remaining falls off the
  loop (`doneTasks += 1`, return -1, line 291); anything else returns
  the code (line 290);
* `wakeSkip`/`wakeGo`: the backoff sleep ends and the loop re-checks
  the flag (line 272); if clear, `internal` redispatches — with *no*
  gate check — incrementing `activeTasks`. -/
inductive Step (rc : RunCfg) : Config → Config → Prop where
  | dispatchSkip (c : Config) (i : Nat) :
      i < rc.nflows → c.flows i = .gate → c.active < rc.L →
      c.flag = true →
      Step rc c { c with flows := Function.update c.flows i (.term (-1)),
                         done := c.done + 1 }
  | dispatchGo (c : Config) (i : Nat) :
      i < rc.nflows → c.flows i = .gate → c.active < rc.L →
      c.flag = false →
      Step rc c { c with
        flows := Function.update c.flows i (.inFlightA rc.maxReq 1),
        active := c.active + 1 }
  | respond (c : Config) (i k b : Nat) (r : Response) :
      i < rc.nflows → c.flows i = .inFlightA k b →
      rc.ora i (rc.maxReq - k) = some r →
      Step rc c { c with
        flows := Function.update c.flows i (.inFlightB k b r),
        active := c.active - 1,
        done := c.done + (if r.status = 429 then 0 else 1),
        responded := c.responded ++ [rc.ident i] }
  | crash (c : Config) (i k b : Nat) :
      i < rc.nflows → c.flows i = .inFlightA k b →
      rc.ora i (rc.maxReq - k) = none →
      Step rc c { c with flows := Function.update c.flows i .crashed }
  | classifyFlagged (c : Config) (i k b : Nat) (r : Response) :
      i < rc.nflows → c.flows i = .inFlightB k b r → c.flag = true →
      Step rc c { c with
        flows := Function.update c.flows i (.term (error_code r)) }
  | classifyStopHit (c : Config) (i k b : Nat) (r : Response) :
      i < rc.nflows → c.flows i = .inFlightB k b r → c.flag = false →
      rc.stop = true → error_code r ≠ 200 →
      Step rc c { c with
        flows := Function.update c.flows i (.term (-1)),
        flag := true }
  | classifyRetry (c : Config) (i k b : Nat) (r : Response) :
      i < rc.nflows → c.flows i = .inFlightB (k + 2) b r →
      c.flag = false → ¬(rc.stop = true ∧ error_code r ≠ 200) →
      error_code r = 429 →
      Step rc c { c with
        flows := Function.update c.flows i (.sleeping (k + 1) (b * 2)) }
  | classifyExhaust (c : Config) (i b : Nat) (r : Response) :
      i < rc.nflows → c.flows i = .inFlightB 1 b r →
      c.flag = false → ¬(rc.stop = true ∧ error_code r ≠ 200) →
      error_code r = 429 →
      Step rc c { c with
        flows := Function.update c.flows i (.term (-1)),
        done := c.done + 1 }
  | classifyDone (c : Config) (i k b : Nat) (r : Response) :
      i < rc.nflows → c.flows i = .inFlightB k b r → c.flag = false →
      ¬(rc.stop = true ∧ error_code r ≠ 200) → error_code r ≠ 429 →
      Step rc c { c with
        flows := Function.update c.flows i (.term (error_code r)) }
  | wakeSkip (c : Config) (i k b : Nat) :
      i < rc.nflows → c.flows i = .sleeping k b → c.flag = true →
      Step rc c { c with
        flows := Function.update c.flows i (.term (-1)),
        done := c.done + 1 }
  | wakeGo (c : Config) (i k b : Nat) :
      i < rc.nflows → c.flows i = .sleeping k b → c.flag = false →
      Step rc c { c with
        flows := Function.update c.flows i (.inFlightA k b),
        active := c.active + 1 }

/-- The initial configuration: every flow waiting at the gate, counters
zero, flag clear, `responseList` empty (src/graphql.py lines 302-304,
227). -/
def initConfig : Config :=
  { flows := fun _ => .gate, active := 0, done := 0, flag := false,
    responded := [] }

/-- Configurations reachable from the start of the run. -/
def Reachable (rc : RunCfg) (c : Config) : Prop :=
  Relation.ReflTransGen (Step rc) initConfig c

/-- The value `asyncio.gather(..., return_exceptions=True)` collects for
one finished task (src/graphql.py line 328): the returned code, or the
escaped exception. -/
def flowResult : PC → Option (Except Unit Int)
  | .term code => some (.ok code)
  | .crashed => some (.error ())
  | _ => none

/-- A flow whose task has ended (normally or with an exception). -/
def taskDone (p : PC) : Prop :=
  flowResult p ≠ none

/-- `results.count(200)` (src/graphql.py line 330) on a gather list that
may contain exception objects: an exception compares unequal to 200. -/
def successesExc (results : List (Except Unit Int)) : Nat :=
  results.countP (fun x => match x with | .ok c => c == 200 | .error _ => false)

/-- The gather list of a run once every task has ended: `flowResult` of
each flow in creation order (`none` entries mean the run has not
completed). -/
def gatherResults (rc : RunCfg) (c : Config) : List (Option (Except Unit Int)) :=
  (List.range rc.nflows).map (fun i => flowResult (c.flows i))

/-! ## Invariant predicates -/

/-- A run configuration whose server never answers 429, so no retry is
ever scheduled. -/
def NoRateLimit (rc : RunCfg) : Prop :=
  ∀ i n r, rc.ora i n = some r → r.status ≠ 429

/-- Per-flow part of the gate invariant for runs without rate limits:
no flow is in a backoff sleep, and no processed response was a 429. -/
def GateInvP : PC → Prop
  | .sleeping _ _ => False
  | .inFlightB _ _ r => r.status ≠ 429
  | _ => True

/-- The gate invariant: the active counter is within the limit and every
flow satisfies `GateInvP`. -/
def GateInv (rc : RunCfg) (c : Config) : Prop :=
  c.active ≤ rc.L ∧ ∀ i, GateInvP (c.flows i)

/-- Every terminated flow returned 200. -/
def TermOk (c : Config) : Prop :=
  ∀ i code, c.flows i = .term code → code = 200

/-- Stop-on-failure invariant: while the flag is clear, no flow has
terminated with a failure. -/
def StopInv (c : Config) : Prop :=
  c.flag = false → TermOk c

/-! ## Concrete scenario data -/

/-- A rate-limit response. -/
def r429 : Response := { status := 429, decodeOk := true, hasErrors := false }

/-- A successful response. -/
def r200ok : Response := { status := 200, decodeOk := true, hasErrors := false }

/-- A 200 response whose JSON carries an `errors` field. -/
def r200err : Response := { status := 200, decodeOk := true, hasErrors := true }

/-- A 200 response whose body is not decodable JSON. -/
def r200bad : Response := { status := 200, decodeOk := false, hasErrors := false }

/-- A server-error response. -/
def r500 : Response := { status := 500, decodeOk := true, hasErrors := false }

/-- Two items, `concurrencyLimit = 1`, `retries = 1`, no stop; the server
always answers 429. -/
def rcC1run : RunCfg :=
  { L := 1, stop := false, retries := 1, nflows := 2, ident := fun i => i + 1,
    ora := fun _ _ => some r429 }

/-- Item 0 passes the gate and dispatches its first attempt. -/
def cfgA1 : Config :=
  { initConfig with
    flows := Function.update initConfig.flows 0 (.inFlightA rcC1run.maxReq 1),
    active := initConfig.active + 1 }

/-- Item 0 receives the 429 headers and releases the counter. -/
def cfgA2 : Config :=
  { cfgA1 with
    flows := Function.update cfgA1.flows 0 (.inFlightB 2 1 r429),
    active := cfgA1.active - 1,
    done := cfgA1.done + (if r429.status = 429 then 0 else 1),
    responded := cfgA1.responded ++ [rcC1run.ident 0] }

/-- Item 0 classifies the 429 and enters the backoff sleep. -/
def cfgA3 : Config :=
  { cfgA2 with
    flows := Function.update cfgA2.flows 0 (.sleeping (0 + 1) (1 * 2)) }

/-- Item 1 passes the gate (the slot is free) and dispatches. -/
def cfgA4 : Config :=
  { cfgA3 with
    flows := Function.update cfgA3.flows 1 (.inFlightA rcC1run.maxReq 1),
    active := cfgA3.active + 1 }

/-- Item 0 wakes from backoff and redispatches without a gate check:
two requests are now in flight with `concurrencyLimit = 1`. -/
def cfgA5 : Config :=
  { cfgA4 with
    flows := Function.update cfgA4.flows 0 (.inFlightA 1 2),
    active := cfgA4.active + 1 }

/-- One item, `stopOnFailure` on (`max_requests = 1`); the server answers
429. -/
def rcC8run : RunCfg :=
  { L := 1, stop := true, retries := 3, nflows := 1, ident := fun i => i + 5,
    ora := fun _ _ => some r429 }

/-- The single item dispatches. -/
def cfgB1 : Config :=
  { initConfig with
    flows := Function.update initConfig.flows 0 (.inFlightA rcC8run.maxReq 1),
    active := initConfig.active + 1 }

/-- The 429 headers arrive: `doneTasks` is *not* incremented. -/
def cfgB2 : Config :=
  { cfgB1 with
    flows := Function.update cfgB1.flows 0 (.inFlightB 1 1 r429),
    active := cfgB1.active - 1,
    done := cfgB1.done + (if r429.status = 429 then 0 else 1),
    responded := cfgB1.responded ++ [rcC8run.ident 0] }

/-- With `args.stop`, the non-200 code sets the flag and the item
terminates with -1; nothing ever increments `doneTasks`. -/
def cfgB3 : Config :=
  { cfgB2 with
    flows := Function.update cfgB2.flows 0 (.term (-1)),
    flag := true }

/-- Two items, `concurrencyLimit = 1`, no stop; the first item's POST
raises, the second would succeed. -/
def rcC6run : RunCfg :=
  { L := 1, stop := false, retries := 0, nflows := 2, ident := fun i => i + 1,
    ora := fun i _ => if i = 0 then none else some r200ok }

/-- Item 0 dispatches, taking the only slot. -/
def cfgD1 : Config :=
  { initConfig with
    flows := Function.update initConfig.flows 0 (.inFlightA rcC6run.maxReq 1),
    active := initConfig.active + 1 }

/-- Item 0's POST raises: the flow dies with `activeTasks` still held. -/
def cfgD2 : Config :=
  { cfgD1 with
    flows := Function.update cfgD1.flows 0 .crashed }

/-- Two items, `concurrencyLimit = 2`, no stop; the first item's POST
raises, the second succeeds. -/
def rcC6ok : RunCfg :=
  { L := 2, stop := false, retries := 0, nflows := 2, ident := fun i => i + 1,
    ora := fun i _ => if i = 0 then none else some r200ok }

/-- Item 0 dispatches. -/
def cfgE1 : Config :=
  { initConfig with
    flows := Function.update initConfig.flows 0 (.inFlightA rcC6ok.maxReq 1),
    active := initConfig.active + 1 }

/-- Item 0's POST raises. -/
def cfgE2 : Config :=
  { cfgE1 with
    flows := Function.update cfgE1.flows 0 .crashed }

/-- Item 1 dispatches (a slot is free under the limit of 2). -/
def cfgE3 : Config :=
  { cfgE2 with
    flows := Function.update cfgE2.flows 1 (.inFlightA rcC6ok.maxReq 1),
    active := cfgE2.active + 1 }

/-- Item 1 receives its 200 response. -/
def cfgE4 : Config :=
  { cfgE3 with
    flows := Function.update cfgE3.flows 1 (.inFlightB 1 1 r200ok),
    active := cfgE3.active - 1,
    done := cfgE3.done + (if r200ok.status = 429 then 0 else 1),
    responded := cfgE3.responded ++ [rcC6ok.ident 1] }

/-- Item 1 classifies the 200 and terminates successfully; every task
has now ended, so the gather returns and the summary is computed. -/
def cfgE5 : Config :=
  { cfgE4 with
    flows := Function.update cfgE4.flows 1 (.term (error_code r200ok)) }

/-- A run configuration whose server always answers a clean 200:
used to instantiate the gate-invariant theorem. -/
def rcOkRun : RunCfg :=
  { L := 1, stop := false, retries := 3, nflows := 2, ident := fun i => i + 1,
    ora := fun _ _ => some r200ok }

/-- A run configuration with `stopOnFailure` for instantiating the
stop-flag theorem. -/
def rcStopRun : RunCfg := rcC8run

/-! ## Classification lemmas -/

theorem error_code_eq_429 (r : Response) : error_code r = 429 ↔ r.status = 429 := by
  unfold error_code
  by_cases h : r.status = 200
  · rcases hd : r.decodeOk with _ | _ <;> rcases he : r.hasErrors with _ | _ <;>
      simp [h, hd, he]
  · simp [h]

theorem error_code_eq_200_iff (r : Response) :
    error_code r = 200 ↔ spec_success r := by
  unfold error_code spec_success
  by_cases h : r.status = 200
  · rcases hd : r.decodeOk with _ | _ <;> rcases he : r.hasErrors with _ | _ <;>
      simp [h, hd, he]
  · simp [h]

theorem error_code_of_status_ne (r : Response) (h : r.status ≠ 200) :
    error_code r = r.status := by
  simp [error_code, h]

theorem error_code_decode_fail (r : Response) (h : r.status = 200)
    (hd : r.decodeOk = false) : error_code r = -1 := by
  simp [error_code, h, hd]

theorem error_code_has_errors (r : Response) (h : r.status = 200)
    (hd : r.decodeOk = true) (he : r.hasErrors = true) : error_code r = -1 := by
  simp [error_code, h, hd, he]

/-! ## Sequential loop lemmas -/

/-- If the stop flag is already set, the loop skips: `doneTasks += 1`,
return `-1`, no attempt is made. -/
theorem doQueryGo_skip (stop : Bool) (id k b : Nat) (resps : Nat → Response)
    (s : RunState) (h : s.stopFlag = true) :
    doQueryGo stop id k b resps s = (-1, bumpDone s) := by
  cases k with
  | zero => rfl
  | succ k => simp [doQueryGo, h]

/-- A first response that is not a 429, with the flag clear and
`args.stop` off, is terminal: the loop returns its `error_code` after
exactly this one attempt. -/
theorem doQueryGo_non429 (id k b : Nat) (resps : Nat → Response)
    (s : RunState) (hf : s.stopFlag = false)
    (hr : (resps 0).status ≠ 429) :
    doQueryGo false id (k + 1) b resps s =
      (error_code (resps 0), recordAttempt id (resps 0) s) := by
  have hc : error_code (resps 0) ≠ 429 := by
    simp [error_code_eq_429]; exact hr
  simp [doQueryGo, hf, recordAttempt, hc]

/-- A 429 with iterations remaining, flag clear, `args.stop` off: record
the attempt, sleep the backoff, double it, and continue with the next
response. -/
theorem doQueryGo_429_step (id k b : Nat) (resps : Nat → Response)
    (s : RunState) (hf : s.stopFlag = false)
    (hr : (resps 0).status = 429) :
    doQueryGo false id (k + 2) b resps s =
      doQueryGo false id (k + 1) (b * 2) (fun n => resps (n + 1))
        (addSleep b (recordAttempt id (resps 0) s)) := by
  have hc : error_code (resps 0) = 429 := (error_code_eq_429 _).2 hr
  simp [doQueryGo, hf, recordAttempt, hc, addSleep]

/-- A 429 on the last available iteration, flag clear, `args.stop` off:
the loop is exhausted, `doneTasks += 1`, return `-1`; no sleep happens. -/
theorem doQueryGo_429_last (id b : Nat) (resps : Nat → Response)
    (s : RunState) (hf : s.stopFlag = false)
    (hr : (resps 0).status = 429) :
    doQueryGo false id 1 b resps s =
      (-1, bumpDone (recordAttempt id (resps 0) s)) := by
  have hc : error_code (resps 0) = 429 := (error_code_eq_429 _).2 hr
  simp [doQueryGo, hf, recordAttempt, hc, bumpDone]

/-- If every attempt would receive a 429 and the flag is clear with
`args.stop` off, running `k` available iterations makes exactly `k`
attempts, sleeps `b, 2b, 4b, …` (`k - 1` sleeps), leaves the flag clear,
increments `doneTasks` once, and returns `-1`. -/
theorem doQueryGo_all429 (id : Nat) (k b : Nat) (resps : Nat → Response)
    (s : RunState) (hf : s.stopFlag = false)
    (hr : ∀ n, (resps n).status = 429) :
    doQueryGo false id k b resps s =
      (-1,
        { doneTasks := s.doneTasks + 1
          stopFlag := false
          responded := s.responded ++ List.replicate k id
          attempts := s.attempts + k
          sleeps := s.sleeps ++ (List.range (k - 1)).map (fun n => b * 2 ^ n) }) := by
  induction k generalizing b resps s with
  | zero =>
    cases s
    simp_all [doQueryGo, bumpDone]
  | succ k ih =>
    cases k with
    | zero =>
      rw [doQueryGo_429_last id b resps s hf (hr 0)]
      cases s
      simp_all [bumpDone, recordAttempt, hr 0]
    | succ m =>
      rw [doQueryGo_429_step id m b resps s hf (hr 0)]
      rw [ih (b * 2) (fun n => resps (n + 1)) _ (by simp [addSleep, recordAttempt, hf])
        (fun n => hr (n + 1))]
      simp [addSleep, recordAttempt, hr 0, List.replicate_succ, List.range_succ_eq_map]
      refine ⟨by ring, ?_⟩
      intro a _
      ring

/-! ## Concrete scenario step chains -/

theorem stepA1 : Step rcC1run initConfig cfgA1 :=
  Step.dispatchGo initConfig 0 (by decide) rfl (by decide) rfl

theorem stepA2 : Step rcC1run cfgA1 cfgA2 :=
  Step.respond cfgA1 0 2 1 r429 (by decide) rfl rfl

theorem stepA3 : Step rcC1run cfgA2 cfgA3 :=
  Step.classifyRetry cfgA2 0 0 1 r429 (by decide) rfl rfl (by decide) (by decide)

theorem stepA4 : Step rcC1run cfgA3 cfgA4 :=
  Step.dispatchGo cfgA3 1 (by decide) rfl (by decide) rfl

theorem stepA5 : Step rcC1run cfgA4 cfgA5 :=
  Step.wakeGo cfgA4 0 1 2 (by decide) rfl rfl

theorem reachA5 : Reachable rcC1run cfgA5 :=
  Relation.ReflTransGen.tail
    (Relation.ReflTransGen.tail
      (Relation.ReflTransGen.tail
        (Relation.ReflTransGen.tail
          (Relation.ReflTransGen.tail Relation.ReflTransGen.refl stepA1)
          stepA2)
        stepA3)
      stepA4)
    stepA5

theorem stepB1 : Step rcC8run initConfig cfgB1 :=
  Step.dispatchGo initConfig 0 (by decide) rfl (by decide) rfl

theorem stepB2 : Step rcC8run cfgB1 cfgB2 :=
  Step.respond cfgB1 0 1 1 r429 (by decide) rfl rfl

theorem stepB3 : Step rcC8run cfgB2 cfgB3 :=
  Step.classifyStopHit cfgB2 0 1 1 r429 (by decide) rfl rfl rfl (by decide)

theorem reachB3 : Reachable rcC8run cfgB3 :=
  Relation.ReflTransGen.tail
    (Relation.ReflTransGen.tail
      (Relation.ReflTransGen.tail Relation.ReflTransGen.refl stepB1)
      stepB2)
    stepB3

theorem stepD1 : Step rcC6run initConfig cfgD1 :=
  Step.dispatchGo initConfig 0 (by decide) rfl (by decide) rfl

theorem stepD2 : Step rcC6run cfgD1 cfgD2 :=
  Step.crash cfgD1 0 1 1 (by decide) rfl rfl

theorem reachD2 : Reachable rcC6run cfgD2 :=
  Relation.ReflTransGen.tail
    (Relation.ReflTransGen.tail Relation.ReflTransGen.refl stepD1)
    stepD2

/-- After the crash, the configuration is stuck: the dead flow holds the
only slot forever, so the gate-waiting flow can never proceed and the
run never completes. -/
theorem cfgD2_stuck : ∀ c, ¬ Step rcC6run cfgD2 c := by
  have hfl : ∀ j : Nat, cfgD2.flows j = if j = 0 then PC.crashed else PC.gate := by
    intro j
    by_cases hj : j = 0
    · subst hj
      rfl
    · simp [cfgD2, cfgD1, initConfig, Function.update, hj]
  intro c h
  cases h with
  | dispatchSkip i hi hpc hact hflag => exact absurd hflag (by decide)
  | dispatchGo i hi hpc hact hflag => exact absurd hact (by decide)
  | respond i k b r hi hpc hora =>
    rw [hfl i] at hpc
    by_cases hj : i = 0 <;> simp [hj] at hpc
  | crash i k b hi hpc hora =>
    rw [hfl i] at hpc
    by_cases hj : i = 0 <;> simp [hj] at hpc
  | classifyFlagged i k b r hi hpc hflag => exact absurd hflag (by decide)
  | classifyStopHit i k b r hi hpc hflag hstop hcode => exact absurd hstop (by decide)
  | classifyRetry i k b r hi hpc hflag hstop hcode =>
    rw [hfl i] at hpc
    by_cases hj : i = 0 <;> simp [hj] at hpc
  | classifyExhaust i b r hi hpc hflag hstop hcode =>
    rw [hfl i] at hpc
    by_cases hj : i = 0 <;> simp [hj] at hpc
  | classifyDone i k b r hi hpc hflag hstop hcode =>
    rw [hfl i] at hpc
    by_cases hj : i = 0 <;> simp [hj] at hpc
  | wakeSkip i k b hi hpc hflag => exact absurd hflag (by decide)
  | wakeGo i k b hi hpc hflag =>
    rw [hfl i] at hpc
    by_cases hj : i = 0 <;> simp [hj] at hpc

theorem stepE1 : Step rcC6ok initConfig cfgE1 :=
  Step.dispatchGo initConfig 0 (by decide) rfl (by decide) rfl

theorem stepE2 : Step rcC6ok cfgE1 cfgE2 :=
  Step.crash cfgE1 0 1 1 (by decide) rfl rfl

theorem stepE3 : Step rcC6ok cfgE2 cfgE3 :=
  Step.dispatchGo cfgE2 1 (by decide) rfl (by decide) rfl

theorem stepE4 : Step rcC6ok cfgE3 cfgE4 :=
  Step.respond cfgE3 1 1 1 r200ok (by decide) rfl rfl

theorem stepE5 : Step rcC6ok cfgE4 cfgE5 :=
  Step.classifyDone cfgE4 1 1 1 r200ok (by decide) rfl rfl (by decide) (by decide)

theorem reachE5 : Reachable rcC6ok cfgE5 :=
  Relation.ReflTransGen.tail
    (Relation.ReflTransGen.tail
      (Relation.ReflTransGen.tail
        (Relation.ReflTransGen.tail
          (Relation.ReflTransGen.tail Relation.ReflTransGen.refl stepE1)
          stepE2)
        stepE3)
      stepE4)
    stepE5

/-! ## Generic step lemmas -/

/-- A single step never clears the stop flag. -/
theorem step_flag_mono {rc : RunCfg} {c c2 : Config} (h : Step rc c c2)
    (hf : c.flag = true) : c2.flag = true := by
  cases h <;> simp_all

/-- The stop flag, once set, stays set for the rest of the run. -/
theorem rtg_flag_mono {rc : RunCfg} {c c2 : Config}
    (h : Relation.ReflTransGen (Step rc) c c2) (hf : c.flag = true) :
    c2.flag = true := by
  induction h with
  | refl => exact hf
  | tail h1 h2 ih => exact step_flag_mono h2 ih

/-- A single step never decreases the done counter. -/
theorem step_done_mono {rc : RunCfg} {c c2 : Config} (h : Step rc c c2) :
    c.done ≤ c2.done := by
  cases h with
  | respond i k b r hi hpc hora => simp
  | _ => simp

/-- The done counter is monotonically non-decreasing along any run. -/
theorem rtg_done_mono {rc : RunCfg} {c c2 : Config}
    (h : Relation.ReflTransGen (Step rc) c c2) : c.done ≤ c2.done := by
  induction h with
  | refl => exact le_refl _
  | tail h1 h2 ih => exact le_trans ih (step_done_mono h2)

/-- Updating one flow preserves a pointwise flow predicate. -/
theorem forall_update_pc (P : PC → Prop) {f : Nat → PC} {i : Nat} {v : PC}
    (hf : ∀ j, P (f j)) (hv : P v) : ∀ j, P (Function.update f i v j) := by
  intro j
  rcases eq_or_ne j i with rfl | hne
  · rwa [Function.update_same]
  · rw [Function.update_noteq hne]
    exact hf j

/-- One step preserves the gate invariant when the server never
rate-limits. -/
theorem gateInv_step {rc : RunCfg} (hora : NoRateLimit rc) {c c2 : Config}
    (h : Step rc c c2) (hinv : GateInv rc c) : GateInv rc c2 := by
  obtain ⟨hA, hP⟩ := hinv
  cases h with
  | dispatchSkip i hi hpc hact hflag =>
    exact ⟨hA, forall_update_pc GateInvP hP trivial⟩
  | dispatchGo i hi hpc hact hflag =>
    refine ⟨?_, forall_update_pc GateInvP hP trivial⟩
    show c.active + 1 ≤ rc.L
    omega
  | respond i k b r hi hpc hra =>
    refine ⟨?_, forall_update_pc GateInvP hP ?_⟩
    · show c.active - 1 ≤ rc.L
      omega
    · exact hora i _ r hra
  | crash i k b hi hpc hra =>
    exact ⟨hA, forall_update_pc GateInvP hP trivial⟩
  | classifyFlagged i k b r hi hpc hflag =>
    exact ⟨hA, forall_update_pc GateInvP hP trivial⟩
  | classifyStopHit i k b r hi hpc hflag hstop hcode =>
    exact ⟨hA, forall_update_pc GateInvP hP trivial⟩
  | classifyRetry i k b r hi hpc hflag hstop hcode =>
    have h0 := hP i
    rw [hpc] at h0
    exact absurd ((error_code_eq_429 r).1 hcode) h0
  | classifyExhaust i b r hi hpc hflag hstop hcode =>
    exact ⟨hA, forall_update_pc GateInvP hP trivial⟩
  | classifyDone i k b r hi hpc hflag hstop hcode =>
    exact ⟨hA, forall_update_pc GateInvP hP trivial⟩
  | wakeSkip i k b hi hpc hflag =>
    exact ⟨hA, forall_update_pc GateInvP hP trivial⟩
  | wakeGo i k b hi hpc hflag =>
    have h0 := hP i
    rw [hpc] at h0
    exact h0.elim

/-- The gate invariant holds in every reachable configuration of a run
without rate limits. -/
theorem gateInv_reachable {rc : RunCfg} (hL : 1 ≤ rc.L) (hora : NoRateLimit rc)
    {c : Config} (h : Reachable rc c) : GateInv rc c := by
  induction h with
  | refl => exact ⟨by simp [initConfig]; omega, fun i => trivial⟩
  | tail h1 h2 ih => exact gateInv_step hora h2 ih

/-- One step preserves the stop invariant when `args.stop` is set. -/
theorem stopInv_step {rc : RunCfg} (hstop : rc.stop = true) {c c2 : Config}
    (h : Step rc c c2) (hinv : StopInv c) : StopInv c2 := by
  cases h with
  | dispatchSkip i hi hpc hact hflag =>
    intro hf2
    have hcf : c.flag = false := hf2
    rw [hflag] at hcf
    exact Bool.noConfusion hcf
  | dispatchGo i hi hpc hact hflag =>
    intro hf2
    have hT := hinv hflag
    exact fun j code hj =>
      forall_update_pc (fun p => ∀ code, p = .term code → code = 200)
        hT (fun code h => PC.noConfusion h) j code hj
  | respond i k b r hi hpc hra =>
    intro hf2
    have hcf : c.flag = false := hf2
    have hT := hinv hcf
    exact fun j code hj =>
      forall_update_pc (fun p => ∀ code, p = .term code → code = 200)
        hT (fun code h => PC.noConfusion h) j code hj
  | crash i k b hi hpc hra =>
    intro hf2
    have hcf : c.flag = false := hf2
    have hT := hinv hcf
    exact fun j code hj =>
      forall_update_pc (fun p => ∀ code, p = .term code → code = 200)
        hT (fun code h => PC.noConfusion h) j code hj
  | classifyFlagged i k b r hi hpc hflag =>
    intro hf2
    have hcf : c.flag = false := hf2
    rw [hflag] at hcf
    exact Bool.noConfusion hcf
  | classifyStopHit i k b r hi hpc hflag hst hcode =>
    intro hf2
    exact Bool.noConfusion hf2
  | classifyRetry i k b r hi hpc hflag hst hcode =>
    intro hf2
    have hT := hinv hflag
    exact fun j code hj =>
      forall_update_pc (fun p => ∀ code, p = .term code → code = 200)
        hT (fun code h => PC.noConfusion h) j code hj
  | classifyExhaust i b r hi hpc hflag hst hcode =>
    exfalso
    have h200 : error_code r = 200 := by
      by_contra hne
      exact hst ⟨hstop, hne⟩
    rw [h200] at hcode
    exact absurd hcode (by decide)
  | classifyDone i k b r hi hpc hflag hst hcode =>
    intro hf2
    have h200 : error_code r = 200 := by
      by_contra hne
      exact hst ⟨hstop, hne⟩
    have hT := hinv hflag
    intro j code hj
    refine forall_update_pc (fun p => ∀ code, p = .term code → code = 200)
      hT ?_ j code hj
    intro code h
    cases h
    exact h200
  | wakeSkip i k b hi hpc hflag =>
    intro hf2
    have hcf : c.flag = false := hf2
    rw [hflag] at hcf
    exact Bool.noConfusion hcf
  | wakeGo i k b hi hpc hflag =>
    intro hf2
    have hT := hinv hflag
    exact fun j code hj =>
      forall_update_pc (fun p => ∀ code, p = .term code → code = 200)
        hT (fun code h => PC.noConfusion h) j code hj

/-- In every reachable configuration of a stop-on-failure run: while the
flag is clear, no flow has terminated with a non-200 outcome. -/
theorem stopInv_reachable {rc : RunCfg} (hstop : rc.stop = true)
    {c : Config} (h : Reachable rc c) : StopInv c := by
  induction h with
  | refl =>
    intro _ i code hj
    exact PC.noConfusion hj
  | tail h1 h2 ih => exact stopInv_step hstop h2 ih

/-- Once the flag is set, the only way a still-gated flow leaves the gate
is the skip transition: it terminates with -1, no request is dispatched
(`activeTasks` untouched), and nothing is appended to `responseList`. -/
theorem step_gate_flagged {rc : RunCfg} {c c2 : Config} (h : Step rc c c2)
    (hflag : c.flag = true) (i : Nat) (hg : c.flows i = .gate)
    (hch : c2.flows i ≠ .gate) :
    c2.flows i = .term (-1) ∧ c2.active = c.active ∧
      c2.responded = c.responded := by
  cases h with
  | dispatchSkip j hj hpc hact hfl =>
    refine ⟨?_, rfl, rfl⟩
    rcases eq_or_ne i j with rfl | hne
    · show Function.update c.flows i (PC.term (-1)) i = PC.term (-1)
      rw [Function.update_same]
    · exfalso
      have hch2 : Function.update c.flows j (PC.term (-1)) i ≠ PC.gate := hch
      rw [Function.update_noteq hne] at hch2
      exact hch2 hg
  | dispatchGo j hj hpc hact hfl => simp [hfl] at hflag
  | respond j k2 b2 r2 hj hpc hra =>
    exfalso
    rcases eq_or_ne i j with rfl | hne
    · rw [hg] at hpc
      exact PC.noConfusion hpc
    · have hch2 : Function.update c.flows j (PC.inFlightB k2 b2 r2) i ≠ PC.gate := hch
      rw [Function.update_noteq hne] at hch2
      exact hch2 hg
  | crash j k2 b2 hj hpc hra =>
    exfalso
    rcases eq_or_ne i j with rfl | hne
    · rw [hg] at hpc
      exact PC.noConfusion hpc
    · have hch2 : Function.update c.flows j (PC.crashed) i ≠ PC.gate := hch
      rw [Function.update_noteq hne] at hch2
      exact hch2 hg
  | classifyFlagged j k2 b2 r2 hj hpc hfl =>
    exfalso
    rcases eq_or_ne i j with rfl | hne
    · rw [hg] at hpc
      exact PC.noConfusion hpc
    · have hch2 : Function.update c.flows j (PC.term (error_code r2)) i ≠ PC.gate := hch
      rw [Function.update_noteq hne] at hch2
      exact hch2 hg
  | classifyStopHit j k2 b2 r2 hj hpc hfl hst hcode => simp [hfl] at hflag
  | classifyRetry j k2 b2 r2 hj hpc hfl hst hcode => simp [hfl] at hflag
  | classifyExhaust j b2 r2 hj hpc hfl hst hcode => simp [hfl] at hflag
  | classifyDone j k2 b2 r2 hj hpc hfl hst hcode => simp [hfl] at hflag
  | wakeSkip j k2 b2 hj hpc hfl =>
    exfalso
    rcases eq_or_ne i j with rfl | hne
    · rw [hg] at hpc
      exact PC.noConfusion hpc
    · have hch2 : Function.update c.flows j (PC.term (-1)) i ≠ PC.gate := hch
      rw [Function.update_noteq hne] at hch2
      exact hch2 hg
  | wakeGo j k2 b2 hj hpc hfl => simp [hfl] at hflag

/-- A flow whose response is already being classified when the flag is
set still completes its attempt normally: its next state is unchanged or
the terminal state carrying the attempt's real `error_code`. -/
theorem step_inflight_flagged {rc : RunCfg} {c c2 : Config} (h : Step rc c c2)
    (hflag : c.flag = true) (i k b : Nat) (r : Response)
    (hB : c.flows i = .inFlightB k b r) :
    c2.flows i = .inFlightB k b r ∨ c2.flows i = .term (error_code r) := by
  cases h with
  | dispatchSkip j hj hpc hact hfl =>
    rcases eq_or_ne i j with rfl | hne
    · rw [hB] at hpc
      exact PC.noConfusion hpc
    · left
      show Function.update c.flows j (PC.term (-1)) i = PC.inFlightB k b r
      rw [Function.update_noteq hne]
      exact hB
  | dispatchGo j hj hpc hact hfl => simp [hfl] at hflag
  | respond j k2 b2 r2 hj hpc hra =>
    rcases eq_or_ne i j with rfl | hne
    · rw [hB] at hpc
      exact PC.noConfusion hpc
    · left
      show Function.update c.flows j (PC.inFlightB k2 b2 r2) i = PC.inFlightB k b r
      rw [Function.update_noteq hne]
      exact hB
  | crash j k2 b2 hj hpc hra =>
    rcases eq_or_ne i j with rfl | hne
    · rw [hB] at hpc
      exact PC.noConfusion hpc
    · left
      show Function.update c.flows j (PC.crashed) i = PC.inFlightB k b r
      rw [Function.update_noteq hne]
      exact hB
  | classifyFlagged j k2 b2 r2 hj hpc hfl =>
    rcases eq_or_ne i j with rfl | hne
    · right
      rw [hB] at hpc
      injection hpc with e1 e2 e3
      subst e1
      subst e2
      subst e3
      show Function.update c.flows i (PC.term (error_code r)) i = PC.term (error_code r)
      rw [Function.update_same]
    · left
      show Function.update c.flows j (PC.term (error_code r2)) i = PC.inFlightB k b r
      rw [Function.update_noteq hne]
      exact hB
  | classifyStopHit j k2 b2 r2 hj hpc hfl hst hcode => simp [hfl] at hflag
  | classifyRetry j k2 b2 r2 hj hpc hfl hst hcode => simp [hfl] at hflag
  | classifyExhaust j b2 r2 hj hpc hfl hst hcode => simp [hfl] at hflag
  | classifyDone j k2 b2 r2 hj hpc hfl hst hcode => simp [hfl] at hflag
  | wakeSkip j k2 b2 hj hpc hfl =>
    rcases eq_or_ne i j with rfl | hne
    · rw [hB] at hpc
      exact PC.noConfusion hpc
    · left
      show Function.update c.flows j (PC.term (-1)) i = PC.inFlightB k b r
      rw [Function.update_noteq hne]
      exact hB
  | wakeGo j k2 b2 hj hpc hfl => simp [hfl] at hflag

/-- A step that kills a flow (its awaited call raised) changes none of
the shared state: the held slot is not released, the done counter is not
advanced, and no outcome is recorded. -/
theorem step_crash_no_release {rc : RunCfg} {c c2 : Config} (h : Step rc c c2)
    (i : Nat) (hni : c.flows i ≠ .crashed) (hcr : c2.flows i = .crashed) :
    c2.active = c.active ∧ c2.done = c.done ∧ c2.responded = c.responded := by
  cases h with
  | dispatchSkip j hj hpc hact hfl =>
    exfalso
    rcases eq_or_ne i j with rfl | hne
    · have hcr2 : Function.update c.flows i (PC.term (-1)) i = PC.crashed := hcr
      rw [Function.update_same] at hcr2
      exact PC.noConfusion hcr2
    · have hcr2 : Function.update c.flows j (PC.term (-1)) i = PC.crashed := hcr
      rw [Function.update_noteq hne] at hcr2
      exact hni hcr2
  | dispatchGo j hj hpc hact hfl =>
    exfalso
    rcases eq_or_ne i j with rfl | hne
    · have hcr2 : Function.update c.flows i (PC.inFlightA rc.maxReq 1) i = PC.crashed := hcr
      rw [Function.update_same] at hcr2
      exact PC.noConfusion hcr2
    · have hcr2 : Function.update c.flows j (PC.inFlightA rc.maxReq 1) i = PC.crashed := hcr
      rw [Function.update_noteq hne] at hcr2
      exact hni hcr2
  | respond j k2 b2 r2 hj hpc hra =>
    exfalso
    rcases eq_or_ne i j with rfl | hne
    · have hcr2 : Function.update c.flows i (PC.inFlightB k2 b2 r2) i = PC.crashed := hcr
      rw [Function.update_same] at hcr2
      exact PC.noConfusion hcr2
    · have hcr2 : Function.update c.flows j (PC.inFlightB k2 b2 r2) i = PC.crashed := hcr
      rw [Function.update_noteq hne] at hcr2
      exact hni hcr2
  | crash j k2 b2 hj hpc hra => exact ⟨rfl, rfl, rfl⟩
  | classifyFlagged j k2 b2 r2 hj hpc hfl =>
    exfalso
    rcases eq_or_ne i j with rfl | hne
    · have hcr2 : Function.update c.flows i (PC.term (error_code r2)) i = PC.crashed := hcr
      rw [Function.update_same] at hcr2
      exact PC.noConfusion hcr2
    · have hcr2 : Function.update c.flows j (PC.term (error_code r2)) i = PC.crashed := hcr
      rw [Function.update_noteq hne] at hcr2
      exact hni hcr2
  | classifyStopHit j k2 b2 r2 hj hpc hfl hst hcode =>
    exfalso
    rcases eq_or_ne i j with rfl | hne
    · have hcr2 : Function.update c.flows i (PC.term (-1)) i = PC.crashed := hcr
      rw [Function.update_same] at hcr2
      exact PC.noConfusion hcr2
    · have hcr2 : Function.update c.flows j (PC.term (-1)) i = PC.crashed := hcr
      rw [Function.update_noteq hne] at hcr2
      exact hni hcr2
  | classifyRetry j k2 b2 r2 hj hpc hfl hst hcode =>
    exfalso
    rcases eq_or_ne i j with rfl | hne
    · have hcr2 : Function.update c.flows i (PC.sleeping (k2 + 1) (b2 * 2)) i = PC.crashed := hcr
      rw [Function.update_same] at hcr2
      exact PC.noConfusion hcr2
    · have hcr2 : Function.update c.flows j (PC.sleeping (k2 + 1) (b2 * 2)) i = PC.crashed := hcr
      rw [Function.update_noteq hne] at hcr2
      exact hni hcr2
  | classifyExhaust j b2 r2 hj hpc hfl hst hcode =>
    exfalso
    rcases eq_or_ne i j with rfl | hne
    · have hcr2 : Function.update c.flows i (PC.term (-1)) i = PC.crashed := hcr
      rw [Function.update_same] at hcr2
      exact PC.noConfusion hcr2
    · have hcr2 : Function.update c.flows j (PC.term (-1)) i = PC.crashed := hcr
      rw [Function.update_noteq hne] at hcr2
      exact hni hcr2
  | classifyDone j k2 b2 r2 hj hpc hfl hst hcode =>
    exfalso
    rcases eq_or_ne i j with rfl | hne
    · have hcr2 : Function.update c.flows i (PC.term (error_code r2)) i = PC.crashed := hcr
      rw [Function.update_same] at hcr2
      exact PC.noConfusion hcr2
    · have hcr2 : Function.update c.flows j (PC.term (error_code r2)) i = PC.crashed := hcr
      rw [Function.update_noteq hne] at hcr2
      exact hni hcr2
  | wakeSkip j k2 b2 hj hpc hfl =>
    exfalso
    rcases eq_or_ne i j with rfl | hne
    · have hcr2 : Function.update c.flows i (PC.term (-1)) i = PC.crashed := hcr
      rw [Function.update_same] at hcr2
      exact PC.noConfusion hcr2
    · have hcr2 : Function.update c.flows j (PC.term (-1)) i = PC.crashed := hcr
      rw [Function.update_noteq hne] at hcr2
      exact hni hcr2
  | wakeGo j k2 b2 hj hpc hfl =>
    exfalso
    rcases eq_or_ne i j with rfl | hne
    · have hcr2 : Function.update c.flows i (PC.inFlightA k2 b2) i = PC.crashed := hcr
      rw [Function.update_same] at hcr2
      exact PC.noConfusion hcr2
    · have hcr2 : Function.update c.flows j (PC.inFlightA k2 b2) i = PC.crashed := hcr
      rw [Function.update_noteq hne] at hcr2
      exact hni hcr2

/-! ## Sequential model lemmas, continued -/

/-- With `args.stop` and a clear flag, `max_requests = 1`: a non-200
classified code on the single attempt sets the flag and returns -1. -/
theorem doQuery_stop_hit (retries id : Nat) (resps : Nat → Response)
    (s : RunState) (hf : s.stopFlag = false)
    (hr : error_code (resps 0) ≠ 200) :
    doQuery true retries id resps s =
      (-1, setFlag (recordAttempt id (resps 0) s)) := by
  unfold doQuery max_requests
  simp [doQueryGo, hf, recordAttempt, hr]

/-- With `args.stop` and a clear flag, a classified 200 on the single
attempt returns 200 without setting the flag. -/
theorem doQuery_stop_ok (retries id : Nat) (resps : Nat → Response)
    (s : RunState) (hf : s.stopFlag = false)
    (hr : error_code (resps 0) = 200) :
    doQuery true retries id resps s = (200, recordAttempt id (resps 0) s) := by
  unfold doQuery max_requests
  simp [doQueryGo, hf, recordAttempt, hr]

/-- Retry exhaustion lifted to `doQuery`: with `retries = R`, all-429
responses produce exactly `R + 1` attempts, the backoff sleeps
`1, 2, 4, …, 2 ^ (R - 1)`, one `doneTasks` increment, outcome `-1`. -/
theorem doQuery_all429 (retries id : Nat) (resps : Nat → Response)
    (s : RunState) (hf : s.stopFlag = false)
    (hr : ∀ n, (resps n).status = 429) :
    doQuery false retries id resps s =
      (-1,
        { doneTasks := s.doneTasks + 1
          stopFlag := false
          responded := s.responded ++ List.replicate (retries + 1) id
          attempts := s.attempts + (retries + 1)
          sleeps := s.sleeps ++ (List.range retries).map (fun n => 2 ^ n) }) := by
  unfold doQuery max_requests
  rw [show (if (false : Bool) then 1 else retries + 1) = retries + 1 from rfl]
  rw [doQueryGo_all429 id (retries + 1) 1 resps s hf hr]
  simp

/-- The outcome of the no-stop loop is 200 exactly when some reachable
attempt gets a successful response: a prefix of 429s within the
iteration budget followed by a classified 200. -/
theorem doQueryGo_eq_200_iff (id k b : Nat) (resps : Nat → Response)
    (s : RunState) (hf : s.stopFlag = false) :
    (doQueryGo false id k b resps s).1 = 200 ↔
      ∃ j, j < k ∧ (∀ m, m < j → (resps m).status = 429) ∧
        error_code (resps j) = 200 := by
  induction k generalizing b resps s with
  | zero =>
    simp only [doQueryGo]
    constructor
    · intro h
      simp at h
    · rintro ⟨j, hj, _⟩
      omega
  | succ k ih =>
    by_cases hr : (resps 0).status = 429
    · have hc0 : error_code (resps 0) = 429 := (error_code_eq_429 _).2 hr
      cases k with
      | zero =>
        rw [doQueryGo_429_last id b resps s hf hr]
        constructor
        · intro h
          simp at h
        · rintro ⟨j, hj, hall, hcode⟩
          have hj0 : j = 0 := by omega
          subst hj0
          rw [hc0] at hcode
          exact absurd hcode (by decide)
      | succ m =>
        rw [doQueryGo_429_step id m b resps s hf hr]
        rw [ih (b * 2) (fun n => resps (n + 1)) _
          (by simp [addSleep, recordAttempt, hf])]
        constructor
        · rintro ⟨j, hj, hall, hcode⟩
          refine ⟨j + 1, by omega, ?_, hcode⟩
          intro mm hmm
          cases mm with
          | zero => exact hr
          | succ mm => exact hall mm (by omega)
        · rintro ⟨j, hj, hall, hcode⟩
          cases j with
          | zero =>
            rw [hc0] at hcode
            exact absurd hcode (by decide)
          | succ j =>
            exact ⟨j, by omega, fun mm h => hall (mm + 1) (by omega), hcode⟩
    · rw [doQueryGo_non429 id k b resps s hf hr]
      constructor
      · intro h
        exact ⟨0, by omega, by omega, h⟩
      · rintro ⟨j, hj, hall, hcode⟩
        cases j with
        | zero => exact hcode
        | succ j => exact absurd (hall 0 (by omega)) hr

/-- The loop only ever appends copies of its own item id to
`responseList`. -/
theorem doQueryGo_responded (stop : Bool) (id k b : Nat)
    (resps : Nat → Response) (s : RunState) :
    ∃ m, (doQueryGo stop id k b resps s).2.responded =
      s.responded ++ List.replicate m id := by
  induction k generalizing b resps s with
  | zero => exact ⟨0, by simp [doQueryGo, bumpDone]⟩
  | succ k ih =>
    by_cases h1 : s.stopFlag
    · exact ⟨0, by simp [doQueryGo, h1, bumpDone]⟩
    · have h1f : s.stopFlag = false := by simpa using h1
      by_cases h2 : stop = true ∧ error_code (resps 0) ≠ 200
      · refine ⟨1, ?_⟩
        simp [doQueryGo, h1f, recordAttempt, setFlag, h2.1, h2.2]
      · by_cases h3 : error_code (resps 0) = 429
        · have hstopf : stop = false := by
            cases stop with
            | false => rfl
            | true => exact absurd ⟨rfl, by rw [h3]; decide⟩ h2
          obtain ⟨m, hm⟩ := ih (b * 2) (fun n => resps (n + 1))
            (if 0 < k then addSleep b (recordAttempt id (resps 0) s)
             else recordAttempt id (resps 0) s)
          refine ⟨m + 1, ?_⟩
          have : (doQueryGo stop id (k + 1) b resps s).2 =
              (doQueryGo stop id k (b * 2) (fun n => resps (n + 1))
                (if 0 < k then addSleep b (recordAttempt id (resps 0) s)
                 else recordAttempt id (resps 0) s)).2 := by
            simp [doQueryGo, h1f, recordAttempt, h3, hstopf]
          rw [this, hm]
          by_cases hk : 0 < k <;>
            simp [hk, addSleep, recordAttempt, List.replicate_succ]
        · refine ⟨1, ?_⟩
          simp [doQueryGo, h1f, recordAttempt, h2, h3]

/-- Whatever appears in `responseList` after one executor was there
before or is that executor's id. -/
theorem doQuery_responded_mem (stop : Bool) (retries id : Nat)
    (resps : Nat → Response) (s : RunState) (x : Nat)
    (hx : x ∈ (doQuery stop retries id resps s).2.responded) :
    x ∈ s.responded ∨ x = id := by
  obtain ⟨m, hm⟩ := doQueryGo_responded stop id (max_requests stop retries) 1 resps s
  rw [doQuery] at hx
  rw [hm] at hx
  rcases List.mem_append.1 hx with h | h
  · exact Or.inl h
  · exact Or.inr (List.eq_of_mem_replicate h)

/-- Whatever appears in `responseList` after a sequential run was there
before or is the id of one of the run's work items. -/
theorem runSeq_responded_mem (stop : Bool) (retries : Nat)
    (items : List (Nat × (Nat → Response))) (s : RunState) (x : Nat)
    (hx : x ∈ (runSeq stop retries items s).2.responded) :
    x ∈ s.responded ∨ x ∈ items.map Prod.fst := by
  induction items generalizing s with
  | nil => exact Or.inl hx
  | cons it rest ih =>
    obtain ⟨id, ora⟩ := it
    rcases ih (doQuery stop retries id ora s).2 hx with h | h
    · rcases doQuery_responded_mem stop retries id ora s x h with h2 | h2
      · exact Or.inl h2
      · exact Or.inr (by rw [List.map_cons, h2]; exact List.mem_cons_self _ _)
    · exact Or.inr (by rw [List.map_cons]; exact List.mem_cons.2 (Or.inr h))

/-- Without `args.stop` and starting from a clear flag, each executor
increments `doneTasks` exactly once and leaves the flag clear. -/
theorem doQueryGo_done_noStop (id k b : Nat) (resps : Nat → Response)
    (s : RunState) (hf : s.stopFlag = false) :
    (doQueryGo false id k b resps s).2.doneTasks = s.doneTasks + 1 ∧
      (doQueryGo false id k b resps s).2.stopFlag = false := by
  induction k generalizing b resps s with
  | zero => simp [doQueryGo, bumpDone, hf]
  | succ k ih =>
    by_cases hr : (resps 0).status = 429
    · cases k with
      | zero =>
        rw [doQueryGo_429_last id b resps s hf hr]
        simp [bumpDone, recordAttempt, hr, hf]
      | succ m =>
        rw [doQueryGo_429_step id m b resps s hf hr]
        have hx := ih (b * 2) (fun n => resps (n + 1))
          (addSleep b (recordAttempt id (resps 0) s))
          (by simp [addSleep, recordAttempt, hf])
        simpa [addSleep, recordAttempt, hr] using hx
    · rw [doQueryGo_non429 id k b resps s hf hr]
      have : (if (resps 0).status = 429 then 0 else 1) = 1 := by simp [hr]
      simp [recordAttempt, hf, this]

/-- Without `args.stop`, a sequential run of `n` items increments
`doneTasks` exactly `n` times: the counter reaches `totalIDs` at batch
completion. -/
theorem runSeq_done_noStop (retries : Nat)
    (items : List (Nat × (Nat → Response))) (s : RunState)
    (hf : s.stopFlag = false) :
    (runSeq false retries items s).2.doneTasks = s.doneTasks + items.length ∧
      (runSeq false retries items s).2.stopFlag = false := by
  induction items generalizing s with
  | nil => exact ⟨by simp [runSeq], by simp [runSeq, hf]⟩
  | cons it rest ih =>
    obtain ⟨id, ora⟩ := it
    have h1 := doQueryGo_done_noStop id (max_requests false retries) 1 ora s hf
    rw [show doQueryGo false id (max_requests false retries) 1 ora s =
      doQuery false retries id ora s from rfl] at h1
    have h2 := ih (doQuery false retries id ora s).2 h1.2
    refine ⟨?_, h2.2⟩
    show (runSeq false retries rest (doQuery false retries id ora s).2).2.doneTasks =
      s.doneTasks + (rest.length + 1)
    rw [h2.1, h1.1]
    omega

/-! ## File-input mode lemmas -/

/-- Filtering an enumeration on the element part keeps as many entries
as filtering the underlying list. -/
theorem enumFrom_filter_length {α : Type} (q : α → Bool) (l : List α) :
    ∀ n, ((List.enumFrom n l).filter (fun p => q p.2)).length =
      (l.filter q).length := by
  induction l with
  | nil => intro n; rfl
  | cons a t ih =>
    intro n
    rw [List.enumFrom]
    by_cases hq : q a
    · simp [List.filter_cons, hq, ih (n + 1)]
    · simp [List.filter_cons, hq, ih (n + 1)]

/-- `totalIDs` equals the number of requests actually created: one per
non-blank line. -/
theorem totalIDs_eq_fileTasks_length (lines : List (List Char)) :
    totalIDsOf lines = (fileTasks lines).length := by
  unfold totalIDsOf fileTasks
  rw [List.length_map]
  exact (enumFrom_filter_length (fun l => decide (pyStrip l ≠ [])) lines 0).symm

/-- Every line index (shifted by one) is put into `lineList`. -/
theorem mem_lineListOf (lines : List (List Char)) (i : Nat)
    (hi : i < lines.length) : (i + 1) ∈ lineListOf lines := by
  unfold lineListOf
  exact List.mem_map.2 ⟨i, List.mem_range.2 hi, rfl⟩

/-- A blank line produces no task: its shifted index is not among the
task ids. -/
theorem blank_not_in_fileTasks (lines : List (List Char)) (i : Nat)
    (hi : i < lines.length) (hb : pyStrip (lines.get ⟨i, hi⟩) = []) :
    (i + 1) ∉ (fileTasks lines).map Prod.fst := by
  intro hmem
  obtain ⟨p, hp, hfst⟩ := List.mem_map.1 hmem
  unfold fileTasks at hp
  obtain ⟨q, hq, hpq⟩ := List.mem_map.1 hp
  have hqf := List.mem_filter.1 hq
  have hqe := List.mem_enum_iff_getElem?.1 hqf.1
  have hq1 : q.1 = i := by
    have : p.1 = q.1 + 1 := by rw [← hpq]
    omega
  rw [hq1] at hqe
  have hq2 : q.2 = lines.get ⟨i, hi⟩ := by
    have hg : lines[i]? = some (lines.get ⟨i, hi⟩) := by
      rw [List.getElem?_eq_getElem hi]
      rfl
    rw [hg] at hqe
    exact (Option.some.inj hqe).symm
  have := hqf.2
  rw [hq2, hb] at this
  simp at this

/-- Attaching response oracles does not change the task ids. -/
theorem withOracles_map_fst (ts : List (Nat × List Char))
    (f : Nat → List Char → Nat → Response) :
    (withOracles ts f).map Prod.fst = ts.map Prod.fst := by
  unfold withOracles
  rw [List.map_map]
  rfl

/-- Membership in the never-responded summary set. -/
theorem mem_neverResponded_iff (vars responded : List Nat) (x : Nat) :
    x ∈ neverResponded vars responded ↔ x ∈ vars ∧ ¬ x ∈ responded := by
  simp [neverResponded]

/-- Terminal at the first non-429: if the first `j` responses are 429
(within the iteration budget) and response `j` is not, the loop stops at
attempt `j + 1` with response `j`'s classified code. -/
theorem doQueryGo_prefix429 (id : Nat) (j : Nat) :
    ∀ (k b : Nat) (resps : Nat → Response) (s : RunState),
    s.stopFlag = false → j < k → (∀ m, m < j → (resps m).status = 429) →
    (resps j).status ≠ 429 →
    (doQueryGo false id k b resps s).1 = error_code (resps j) ∧
    (doQueryGo false id k b resps s).2.attempts = s.attempts + (j + 1) := by
  induction j with
  | zero =>
    intro k b resps s hf hjk h429 hnon
    obtain ⟨k2, rfl⟩ : ∃ k2, k = k2 + 1 := ⟨k - 1, by omega⟩
    rw [doQueryGo_non429 id k2 b resps s hf hnon]
    exact ⟨rfl, by simp [recordAttempt]⟩
  | succ j ih =>
    intro k b resps s hf hjk h429 hnon
    obtain ⟨k2, rfl⟩ : ∃ k2, k = k2 + 2 := ⟨k - 2, by omega⟩
    rw [doQueryGo_429_step id k2 b resps s hf (h429 0 (by omega))]
    have hx := ih (k2 + 1) (b * 2) (fun n => resps (n + 1))
      (addSleep b (recordAttempt id (resps 0) s))
      (by simp [addSleep, recordAttempt, hf]) (by omega)
      (fun m hm => h429 (m + 1) (by omega)) hnon
    refine ⟨hx.1, ?_⟩
    rw [hx.2]
    simp [addSleep, recordAttempt]
    omega

/-! ## Claim theorems -/

/-- **C2.** Retry happens only on HTTP 429: with `stopOnFailure` off,
`maxAttempts = retries + 1`; an attempt whose first response is not a 429
(any other status, a decode failure, or an `errors` payload) is terminal
with no further attempt, returning its classified code; and an item whose
every attempt returns 429 makes exactly `R + 1` attempts, sleeping
backoffs `1, 2, 4, …` (doubling each retry), with final outcome `-1`. -/
theorem claim_C2 :
    (∀ R : Nat, max_requests false R = R + 1)
    ∧ (∀ (R id : Nat) (resps : Nat → Response) (s : RunState),
        s.stopFlag = false → (resps 0).status ≠ 429 →
        doQuery false R id resps s =
          (error_code (resps 0), recordAttempt id (resps 0) s))
    ∧ (∀ (R j id : Nat) (resps : Nat → Response) (s : RunState),
        s.stopFlag = false → j ≤ R → (∀ m, m < j → (resps m).status = 429) →
        (resps j).status ≠ 429 →
        (doQuery false R id resps s).1 = error_code (resps j) ∧
        (doQuery false R id resps s).2.attempts = s.attempts + (j + 1))
    ∧ (∀ (R id : Nat) (resps : Nat → Response) (s : RunState),
        s.stopFlag = false → (∀ n, (resps n).status = 429) →
        (doQuery false R id resps s).1 = -1 ∧
        (doQuery false R id resps s).2.attempts = s.attempts + (R + 1) ∧
        (doQuery false R id resps s).2.sleeps =
          s.sleeps ++ (List.range R).map (fun n => 2 ^ n)) := by
  refine ⟨fun R => rfl, ?_, ?_, ?_⟩
  · intro R id resps s hf hr
    exact doQueryGo_non429 id R 1 resps s hf hr
  · intro R j id resps s hf hjR h429 hnon
    exact doQueryGo_prefix429 id j (R + 1) 1 resps s hf (by omega) h429 hnon
  · intro R id resps s hf hr
    rw [doQuery_all429 R id resps s hf hr]
    exact ⟨rfl, rfl, rfl⟩

theorem claim_C2_witness :
    initRun.stopFlag = false ∧ r500.status ≠ 429 ∧
    doQuery false 3 7 (fun _ => r500) initRun =
      (error_code r500, recordAttempt 7 r500 initRun) ∧
    (doQuery false 3 11 (fun n => if n < 2 then r429 else r500) initRun).1 =
      error_code r500 ∧
    (doQuery false 3 11 (fun n => if n < 2 then r429 else r500) initRun).2.attempts =
      initRun.attempts + 3 ∧
    (∀ n : Nat, ((fun _ => r429) n : Response).status = 429) ∧
    (doQuery false 2 9 (fun _ => r429) initRun).1 = -1 ∧
    (doQuery false 2 9 (fun _ => r429) initRun).2.attempts = initRun.attempts + 3 ∧
    (doQuery false 2 9 (fun _ => r429) initRun).2.sleeps = [1, 2] :=
  ⟨rfl, by decide, claim_C2.2.1 3 7 (fun _ => r500) initRun rfl (by decide),
    (claim_C2.2.2.1 3 2 11 (fun n => if n < 2 then r429 else r500) initRun rfl
      (by omega) (fun m hm => by interval_cases m <;> rfl) (by decide)).1,
    (claim_C2.2.2.1 3 2 11 (fun n => if n < 2 then r429 else r500) initRun rfl
      (by omega) (fun m hm => by interval_cases m <;> rfl) (by decide)).2,
    fun _ => rfl,
    (claim_C2.2.2.2 2 9 (fun _ => r429) initRun rfl (fun _ => rfl)).1,
    (claim_C2.2.2.2 2 9 (fun _ => r429) initRun rfl (fun _ => rfl)).2.1,
    (claim_C2.2.2.2 2 9 (fun _ => r429) initRun rfl (fun _ => rfl)).2.2⟩

/-- **C3.** The recorded outcome of an attempt's response is a success
iff the HTTP status is exactly 200, the body decodes, and the decoded
body has no `errors` key; a 200 with a decode failure or an `errors` key
is classified `-1`; an executor's outcome is 200 exactly when a
within-budget attempt got a successful response; and `successes` counts
exactly the outcomes equal to the success code 200. -/
theorem claim_C3 :
    (∀ r : Response, error_code r = 200 ↔ spec_success r)
    ∧ (∀ r : Response, r.status = 200 → r.decodeOk = false → error_code r = -1)
    ∧ (∀ r : Response, r.status = 200 → r.decodeOk = true → r.hasErrors = true →
        error_code r = -1)
    ∧ (∀ (R id : Nat) (resps : Nat → Response) (s : RunState),
        s.stopFlag = false →
        ((doQuery false R id resps s).1 = 200 ↔
          ∃ j, j ≤ R ∧ (∀ m, m < j → (resps m).status = 429) ∧
            spec_success (resps j)))
    ∧ (∀ results : List Int,
        successesOf results = (results.filter (fun c => c = 200)).length) := by
  refine ⟨error_code_eq_200_iff, error_code_decode_fail, error_code_has_errors, ?_, ?_⟩
  · intro R id resps s hf
    rw [show doQuery false R id resps s = doQueryGo false id (R + 1) 1 resps s from rfl]
    rw [doQueryGo_eq_200_iff id (R + 1) 1 resps s hf]
    constructor
    · rintro ⟨j, hj, hall, hcode⟩
      exact ⟨j, by omega, hall, (error_code_eq_200_iff _).1 hcode⟩
    · rintro ⟨j, hj, hall, hs⟩
      exact ⟨j, by omega, hall, (error_code_eq_200_iff _).2 hs⟩
  · intro results
    induction results with
    | nil => rfl
    | cons a t ih =>
      by_cases ha : a = 200
      · subst ha
        simp [successesOf, List.filter_cons] at ih ⊢
        omega
      · simp [successesOf, List.count_cons, List.filter_cons, ha] at ih ⊢
        exact ih

theorem claim_C3_witness :
    initRun.stopFlag = false ∧
    ((doQuery false 2 7 (fun n => if n < 2 then r429 else r200ok) initRun).1 = 200 ↔
      ∃ j, j ≤ 2 ∧
        (∀ m, m < j → ((fun n => if n < 2 then r429 else r200ok) m : Response).status = 429) ∧
        spec_success ((fun n => if n < 2 then r429 else r200ok) j)) :=
  ⟨rfl, claim_C3.2.2.2.1 2 7 (fun n => if n < 2 then r429 else r200ok) initRun rfl⟩

/-- **C5 counterexample.** With `stopOnFailure` off, a 500 response (no
decode failure, no `errors` key) is a failure, yet its recorded outcome
is 500, not the -1 sentinel the claim requires for every failure. -/
theorem claim_C5_counterexample :
    (doQuery false 3 7 (fun _ => r500) initRun).1 = 500 ∧
    (doQuery false 3 7 (fun _ => r500) initRun).1 ≠ -1 ∧
    (doQuery false 3 7 (fun _ => r500) initRun).1 ≠ 200 :=
  ⟨rfl, by decide, by decide⟩

/-- **C5 amended.** The -1 sentinel covers decode failures, `errors`
payloads, 429 retry exhaustion, and skipped items; but a failure with a
non-200, non-429 transport status (e.g. 500) is recorded with its actual
status, not -1. -/
theorem claim_C5_amended :
    (∀ (R id : Nat) (resps : Nat → Response) (s : RunState),
        s.stopFlag = false → (resps 0).status = 200 → (resps 0).decodeOk = false →
        (doQuery false R id resps s).1 = -1)
    ∧ (∀ (R id : Nat) (resps : Nat → Response) (s : RunState),
        s.stopFlag = false → (resps 0).status = 200 → (resps 0).decodeOk = true →
        (resps 0).hasErrors = true →
        (doQuery false R id resps s).1 = -1)
    ∧ (∀ (R id : Nat) (resps : Nat → Response) (s : RunState),
        s.stopFlag = false → (∀ n, (resps n).status = 429) →
        (doQuery false R id resps s).1 = -1)
    ∧ (∀ (stop : Bool) (R id : Nat) (resps : Nat → Response) (s : RunState),
        s.stopFlag = true → doQuery stop R id resps s = (-1, bumpDone s))
    ∧ (∀ (R id : Nat) (resps : Nat → Response) (s : RunState),
        s.stopFlag = false → (resps 0).status ≠ 200 → (resps 0).status ≠ 429 →
        (doQuery false R id resps s).1 = (resps 0).status) := by
  refine ⟨?_, ?_, ?_, ?_, ?_⟩
  · intro R id resps s hf h200 hd
    rw [show doQuery false R id resps s = doQueryGo false id (R + 1) 1 resps s from rfl]
    rw [doQueryGo_non429 id R 1 resps s hf (by rw [h200]; decide)]
    simp [error_code_decode_fail (resps 0) h200 hd]
  · intro R id resps s hf h200 hd he
    rw [show doQuery false R id resps s = doQueryGo false id (R + 1) 1 resps s from rfl]
    rw [doQueryGo_non429 id R 1 resps s hf (by rw [h200]; decide)]
    simp [error_code_has_errors (resps 0) h200 hd he]
  · intro R id resps s hf hr
    rw [doQuery_all429 R id resps s hf hr]
  · intro stop R id resps s hf
    exact doQueryGo_skip stop id (max_requests stop R) 1 resps s hf
  · intro R id resps s hf h200 h429
    rw [show doQuery false R id resps s = doQueryGo false id (R + 1) 1 resps s from rfl]
    rw [doQueryGo_non429 id R 1 resps s hf h429]
    simp [error_code_of_status_ne (resps 0) h200]

theorem claim_C5_amended_witness :
    initRun.stopFlag = false ∧
    (doQuery false 3 7 (fun _ => r200bad) initRun).1 = -1 ∧
    (doQuery false 3 7 (fun _ => r200err) initRun).1 = -1 ∧
    (doQuery false 3 7 (fun _ => r429) initRun).1 = -1 ∧
    doQuery true 3 7 (fun _ => r200ok) { initRun with stopFlag := true } =
      (-1, bumpDone { initRun with stopFlag := true }) ∧
    (doQuery false 3 7 (fun _ => r500) initRun).1 = r500.status :=
  ⟨rfl,
    claim_C5_amended.1 3 7 (fun _ => r200bad) initRun rfl rfl rfl,
    claim_C5_amended.2.1 3 7 (fun _ => r200err) initRun rfl rfl rfl rfl,
    claim_C5_amended.2.2.1 3 7 (fun _ => r429) initRun rfl (fun _ => rfl),
    claim_C5_amended.2.2.2.1 true 3 7 (fun _ => r200ok) { initRun with stopFlag := true } rfl,
    claim_C5_amended.2.2.2.2 3 7 (fun _ => r500) initRun rfl (by decide) (by decide)⟩

/-- **C7.** The never-responded summary set consists exactly of the
listed ids never appended to `responseList`; an item whose response was
a 200 carrying an `errors` field is appended to `responseList` (hence
never in the never-responded set) although its outcome is the failure
code -1. -/
theorem claim_C7 :
    (∀ (vars responded : List Nat) (x : Nat),
        x ∈ neverResponded vars responded ↔ x ∈ vars ∧ ¬ x ∈ responded)
    ∧ (∀ (stop : Bool) (R id : Nat) (resps : Nat → Response) (s : RunState),
        s.stopFlag = false → (resps 0).status = 200 → (resps 0).decodeOk = true →
        (resps 0).hasErrors = true →
        id ∈ (doQuery stop R id resps s).2.responded ∧
        (doQuery stop R id resps s).1 = -1 ∧
        ∀ vars : List Nat,
          ¬ id ∈ neverResponded vars (doQuery stop R id resps s).2.responded) := by
  refine ⟨mem_neverResponded_iff, ?_⟩
  intro stop R id resps s hf h200 hd he
  have hcode : error_code (resps 0) = -1 := error_code_has_errors (resps 0) h200 hd he
  have hmain : id ∈ (doQuery stop R id resps s).2.responded ∧
      (doQuery stop R id resps s).1 = -1 := by
    cases stop with
    | true =>
      rw [doQuery_stop_hit R id resps s hf (by rw [hcode]; decide)]
      refine ⟨?_, rfl⟩
      show id ∈ (setFlag (recordAttempt id (resps 0) s)).responded
      simp [setFlag, recordAttempt]
    | false =>
      rw [show doQuery false R id resps s = doQueryGo false id (R + 1) 1 resps s from rfl]
      rw [doQueryGo_non429 id R 1 resps s hf (by rw [h200]; decide)]
      refine ⟨?_, by simp [hcode]⟩
      show id ∈ (recordAttempt id (resps 0) s).responded
      simp [recordAttempt]
  refine ⟨hmain.1, hmain.2, ?_⟩
  intro vars hmem
  exact ((mem_neverResponded_iff vars _ id).1 hmem).2 hmain.1

theorem claim_C7_witness :
    initRun.stopFlag = false ∧
    3 ∈ (doQuery false 0 3 (fun _ => r200err) initRun).2.responded ∧
    (doQuery false 0 3 (fun _ => r200err) initRun).1 = -1 ∧
    ¬ 3 ∈ neverResponded [1, 2, 3]
        (doQuery false 0 3 (fun _ => r200err) initRun).2.responded :=
  ⟨rfl,
    (claim_C7.2 false 0 3 (fun _ => r200err) initRun rfl rfl rfl rfl).1,
    (claim_C7.2 false 0 3 (fun _ => r200err) initRun rfl rfl rfl rfl).2.1,
    (claim_C7.2 false 0 3 (fun _ => r200err) initRun rfl rfl rfl rfl).2.2 [1, 2, 3]⟩

/-- **C10 counterexample.** Without `stopOnFailure` (here `retries = 0`),
a 429 response — a non-200 attempt result — is *not* recorded with its
real status code: the item records -1 after exhaustion. -/
theorem claim_C10_counterexample :
    r429.status = 429 ∧ r429.status ≠ 200 ∧
    (doQuery false 0 7 (fun _ => r429) initRun).1 = -1 ∧
    (doQuery false 0 7 (fun _ => r429) initRun).1 ≠ r429.status :=
  ⟨rfl, by decide, rfl, by decide⟩

/-- **C10 amended.** With `stopOnFailure`, a first failing item's
non-200 classified code sets the stop flag and records -1, whatever the
real status was; without `stopOnFailure`, a non-200, non-429 HTTP status
is recorded as itself, while a 429 is retried and records -1 once
attempts are exhausted. -/
theorem claim_C10_amended :
    (∀ (R id : Nat) (resps : Nat → Response) (s : RunState),
        s.stopFlag = false → error_code (resps 0) ≠ 200 →
        (doQuery true R id resps s).1 = -1 ∧
        (doQuery true R id resps s).2.stopFlag = true)
    ∧ (∀ (R id : Nat) (resps : Nat → Response) (s : RunState),
        s.stopFlag = false → (resps 0).status ≠ 200 → (resps 0).status ≠ 429 →
        (doQuery false R id resps s).1 = (resps 0).status)
    ∧ (∀ (R id : Nat) (resps : Nat → Response) (s : RunState),
        s.stopFlag = false → (∀ n, (resps n).status = 429) →
        (doQuery false R id resps s).1 = -1) := by
  refine ⟨?_, ?_, ?_⟩
  · intro R id resps s hf hne
    rw [doQuery_stop_hit R id resps s hf hne]
    exact ⟨rfl, rfl⟩
  · intro R id resps s hf h200 h429
    rw [show doQuery false R id resps s = doQueryGo false id (R + 1) 1 resps s from rfl]
    rw [doQueryGo_non429 id R 1 resps s hf h429]
    simp [error_code_of_status_ne (resps 0) h200]
  · intro R id resps s hf hr
    rw [doQuery_all429 R id resps s hf hr]

theorem claim_C10_amended_witness :
    initRun.stopFlag = false ∧ error_code r500 ≠ 200 ∧
    (doQuery true 3 7 (fun _ => r500) initRun).1 = -1 ∧
    (doQuery true 3 7 (fun _ => r500) initRun).2.stopFlag = true ∧
    (doQuery false 3 7 (fun _ => r500) initRun).1 = r500.status :=
  ⟨rfl, by decide,
    (claim_C10_amended.1 3 7 (fun _ => r500) initRun rfl (by decide)).1,
    (claim_C10_amended.1 3 7 (fun _ => r500) initRun rfl (by decide)).2,
    claim_C10_amended.2.1 3 7 (fun _ => r500) initRun rfl (by decide) (by decide)⟩

/-- **C1 counterexample.** With `concurrencyLimit = 1`, two items and a
429 retry, a reachable configuration has two requests in flight: the
gate is only checked before an item's first attempt, and the retry
redispatch after backoff bypasses it. -/
theorem claim_C1_counterexample :
    Reachable rcC1run cfgA5 ∧ rcC1run.L = 1 ∧ cfgA5.active = 2 :=
  ⟨reachA5, rfl, rfl⟩

/-- **C1 amended.** For `L ≥ 1`, the active counter never exceeds `L` in
any run in which no attempt receives a 429 (so no retry redispatch ever
happens); the claimed bound fails in general because a retry bypasses
the admission gate. -/
theorem claim_C1_amended (rc : RunCfg) (hL : 1 ≤ rc.L) (hora : NoRateLimit rc)
    (c : Config) (hc : Reachable rc c) : c.active ≤ rc.L :=
  (gateInv_reachable hL hora hc).1

theorem claim_C1_amended_witness :
    (1 : Int) ≤ rcOkRun.L ∧ NoRateLimit rcOkRun ∧ initConfig.active ≤ rcOkRun.L := by
  have hora : NoRateLimit rcOkRun := by
    intro i n r h
    injection h with h2
    subst h2
    decide
  exact ⟨by decide, hora,
    claim_C1_amended rcOkRun (by decide) hora initConfig Relation.ReflTransGen.refl⟩

/-- **C4.** With `stopOnFailure` on: the stop flag, once set, is never
cleared; in every reachable configuration any flow that terminated with
a non-200 outcome implies the flag is set (it is set as soon as a
terminal failure happens); a flow still at the gate when the flag is set
can only leave the gate by terminating as skipped with -1, dispatching
no request and recording nothing; and a flow already holding a response
completes its attempt normally. -/
theorem claim_C4 (rc : RunCfg) (hstop : rc.stop = true) :
    (∀ c c2 : Config, Relation.ReflTransGen (Step rc) c c2 → c.flag = true →
        c2.flag = true)
    ∧ (∀ c : Config, Reachable rc c → ∀ i code, c.flows i = .term code →
        code ≠ 200 → c.flag = true)
    ∧ (∀ c c2 : Config, Step rc c c2 → c.flag = true → ∀ i, c.flows i = .gate →
        c2.flows i ≠ .gate →
        c2.flows i = .term (-1) ∧ c2.active = c.active ∧
          c2.responded = c.responded)
    ∧ (∀ c c2 : Config, Step rc c c2 → c.flag = true →
        ∀ (i k b : Nat) (r : Response), c.flows i = .inFlightB k b r →
        c2.flows i = .inFlightB k b r ∨ c2.flows i = .term (error_code r)) := by
  refine ⟨fun c c2 h hf => rtg_flag_mono h hf, ?_,
    fun c c2 h hf i hg hch => step_gate_flagged h hf i hg hch,
    fun c c2 h hf i k b r hB => step_inflight_flagged h hf i k b r hB⟩
  intro c hc i code hterm hne
  by_contra hflag
  have hf : c.flag = false := by
    cases hfc : c.flag
    · rfl
    · exact absurd hfc hflag
  exact hne (stopInv_reachable hstop hc hf i code hterm)

theorem claim_C4_witness :
    rcC8run.stop = true ∧ cfgB3.flows 0 = PC.term (-1) ∧ cfgB3.flag = true :=
  ⟨rfl, rfl, (claim_C4 rcC8run rfl).2.1 cfgB3 reachB3 0 (-1) rfl (by decide)⟩

/-- **C8 counterexample.** One item, `stopOnFailure` on, server answers
429: the run completes (the only task terminated) with
`doneTasks = 0 ≠ 1 = totalItems` — the done counter never reaches the
batch size. -/
theorem claim_C8_counterexample :
    Reachable rcC8run cfgB3 ∧
    (∀ i, i < rcC8run.nflows → taskDone (cfgB3.flows i)) ∧
    cfgB3.done = 0 ∧ rcC8run.nflows = 1 ∧ cfgB3.done ≠ rcC8run.nflows := by
  refine ⟨reachB3, ?_, rfl, rfl, by decide⟩
  intro i hi
  have hi1 : i < 1 := hi
  have h0 : i = 0 := by omega
  subst h0
  show flowResult (cfgB3.flows 0) ≠ none
  rw [show cfgB3.flows 0 = PC.term (-1) from rfl]
  simp [flowResult]

/-- **C8 amended.** The done counter is monotonically non-decreasing in
every run; with `stopOnFailure` off (and every attempt answered) it
reaches exactly `totalItems` at batch completion; with `stopOnFailure`
on, a 429 attempt can terminate its item without any increment, leaving
the final count below `totalItems`. -/
theorem claim_C8_amended :
    (∀ (rc : RunCfg) (c c2 : Config), Relation.ReflTransGen (Step rc) c c2 →
        c.done ≤ c2.done)
    ∧ (∀ (R : Nat) (items : List (Nat × (Nat → Response))) (s : RunState),
        s.stopFlag = false →
        (runSeq false R items s).2.doneTasks = s.doneTasks + items.length) :=
  ⟨fun _ _ _ h => rtg_done_mono h,
    fun R items s hf => (runSeq_done_noStop R items s hf).1⟩

theorem claim_C8_amended_witness :
    initRun.stopFlag = false ∧
    (runSeq false 1 [(1, fun _ => r200ok), (2, fun _ => r500)] initRun).2.doneTasks =
      initRun.doneTasks + 2 :=
  ⟨rfl, claim_C8_amended.2 1 [(1, fun _ => r200ok), (2, fun _ => r500)] initRun rfl⟩

/-- **C6 counterexample.** An executor whose POST raises is *not* caught
at the per-executor boundary and *not* converted into a -1 outcome: the
flow dies as `crashed` (its gather value is the exception object), no
outcome line is recorded, and — because the crashed flow never releases
its admission slot — the second item spins at the gate forever: the
configuration is stuck with an unfinished task, so the run never reaches
the summary. -/
theorem claim_C6_counterexample :
    Reachable rcC6run cfgD2 ∧ (∀ c, ¬ Step rcC6run cfgD2 c) ∧
    cfgD2.flows 0 = PC.crashed ∧
    flowResult (cfgD2.flows 0) ≠ some (Except.ok (-1)) ∧
    cfgD2.responded = [] ∧ ¬ taskDone (cfgD2.flows 1) := by
  refine ⟨reachD2, cfgD2_stuck, rfl, ?_, rfl, ?_⟩
  · rw [show cfgD2.flows 0 = PC.crashed from rfl]
    simp [flowResult]
  · show ¬ flowResult (cfgD2.flows 1) ≠ none
    rw [show cfgD2.flows 1 = PC.gate from rfl]
    simp [flowResult]

/-- **C6 amended.** A raising executor's exception escapes `doQuery`:
the crash step releases no shared state (the slot stays held, no done
increment, no outcome recorded); `asyncio.gather` captures the exception
object at the coordinator boundary, where it counts as a failure, and —
when no other item is starved at the gate — the remaining items complete
and the summary is computed, with the crashed item in the
never-responded set. -/
theorem claim_C6_amended :
    (∀ (rc : RunCfg) (c c2 : Config) (i : Nat), Step rc c c2 →
        c.flows i ≠ .crashed → c2.flows i = .crashed →
        c2.active = c.active ∧ c2.done = c.done ∧ c2.responded = c.responded)
    ∧ (Reachable rcC6ok cfgE5 ∧
        gatherResults rcC6ok cfgE5 = [some (Except.error ()), some (Except.ok 200)] ∧
        successesExc [Except.error (), Except.ok 200] = 1 ∧
        neverResponded [1, 2] cfgE5.responded = [1]) := by
  refine ⟨fun rc c c2 i h h1 h2 => step_crash_no_release h i h1 h2,
    reachE5, ?_, rfl, ?_⟩
  · rfl
  · rfl

theorem claim_C6_amended_witness :
    cfgD1.flows 0 ≠ PC.crashed ∧ cfgD2.flows 0 = PC.crashed ∧
    cfgD2.active = cfgD1.active ∧ cfgD2.done = cfgD1.done ∧
    cfgD2.responded = cfgD1.responded := by
  refine ⟨by decide, rfl, ?_⟩
  exact claim_C6_amended.1 rcC6run cfgD1 cfgD2 0 stepD2 (by decide) rfl

/-- **C9.** In file-input mode a blank line creates no request and is
excluded from `totalIDs` (which equals the number of tasks created), yet
its line index is still appended to `lineList`; since nothing can ever
append that index to `responseList`, whenever the summary's
never-responded set is computed (`successes ≠ totalIDs`), the blank
line's index is reported in it. -/
theorem claim_C9 (lines : List (List Char)) (i : Nat) (hi : i < lines.length)
    (hblank : pyStrip (lines.get ⟨i, hi⟩) = [])
    (f : Nat → List Char → Nat → Response) (stop : Bool) (R : Nat) :
    totalIDsOf lines = (fileTasks lines).length
    ∧ (i + 1) ∈ lineListOf lines
    ∧ ¬ (i + 1) ∈ (fileTasks lines).map Prod.fst
    ∧ ¬ (i + 1) ∈
        (runSeq stop R (withOracles (fileTasks lines) f) initRun).2.responded
    ∧ (successesOf (runSeq stop R (withOracles (fileTasks lines) f) initRun).1 ≠
          totalIDsOf lines →
        (i + 1) ∈ neverResponded (lineListOf lines)
          (runSeq stop R (withOracles (fileTasks lines) f) initRun).2.responded) := by
  have hnotask := blank_not_in_fileTasks lines i hi hblank
  have hnoresp : ¬ (i + 1) ∈
      (runSeq stop R (withOracles (fileTasks lines) f) initRun).2.responded := by
    intro hmem
    rcases runSeq_responded_mem stop R (withOracles (fileTasks lines) f)
        initRun (i + 1) hmem with h | h
    · simp [initRun] at h
    · rw [withOracles_map_fst] at h
      exact hnotask h
  refine ⟨totalIDs_eq_fileTasks_length lines, mem_lineListOf lines i hi,
    hnotask, hnoresp, ?_⟩
  intro _
  exact (mem_neverResponded_iff _ _ _).2 ⟨mem_lineListOf lines i hi, hnoresp⟩

theorem claim_C9_witness :
    1 < ([[Char.ofNat 97], [Char.ofNat 32], [Char.ofNat 98]] :
        List (List Char)).length ∧
    pyStrip [Char.ofNat 32] = [] ∧
    totalIDsOf [[Char.ofNat 97], [Char.ofNat 32], [Char.ofNat 98]] =
      (fileTasks [[Char.ofNat 97], [Char.ofNat 32], [Char.ofNat 98]]).length ∧
    2 ∈ lineListOf [[Char.ofNat 97], [Char.ofNat 32], [Char.ofNat 98]] ∧
    ¬ 2 ∈ (fileTasks [[Char.ofNat 97], [Char.ofNat 32], [Char.ofNat 98]]).map
        Prod.fst ∧
    ¬ 2 ∈ (runSeq false 0
        (withOracles (fileTasks [[Char.ofNat 97], [Char.ofNat 32], [Char.ofNat 98]])
          (fun _ _ _ => r200ok)) initRun).2.responded := by
  have h := claim_C9 [[Char.ofNat 97], [Char.ofNat 32], [Char.ofNat 98]] 1
    (by decide) (by decide) (fun _ _ _ => r200ok) false 0
  exact ⟨by decide, by decide, h.1, h.2.1, h.2.2.1, h.2.2.2.1⟩

end Graphql
